import Mathlib

/-!
Shallow embedding of the candidate-selection logic of
`src/PWGHF/TableProducer/candidateSelectorToXiPi.cxx` (struct
`HfCandidateSelectorToXiPi`) and of the track-pairing loop of
`src/Tasks/vertexerhf.cxx` (struct `VertexerHFTask`), together with theorems
settling the specification claims.

Real-valued quantities (`double`/`float` in the source) are modelled by `ℚ`;
every comparison the code performs is exact on the values compared.  The
histogram registry is modelled as the ordered list of fill events
`(histogram, bin value)` performed by the code; `LOGF(fatal, ...)` is
modelled as an `Except.error` carrying the fills performed before the abort.
-/

namespace ToXiPi

/-- Track record: the fields of the joined track tables (`TracksSel`,
`TracksSelLf`) that the selector reads. -/
structure Track where
  hasTPC : Bool
  hasTOF : Bool
  tpcNClsFound : Int
  tpcNClsCrossedRows : Int
  tpcCrossedRowsOverFindableCls : ℚ
  tpcChi2NCl : ℚ
  itsNCls : Int
  itsChi2NCl : ℚ
  itsNClsInnerBarrel : Int
  tpcNSigmaPi : ℚ
  tpcNSigmaPr : ℚ
  tofNSigmaPi : ℚ
  tofNSigmaPr : ℚ
deriving DecidableEq

/-- Candidate record: the columns of `aod::HfCandToXiPi` read by `process`. -/
structure Candidate where
  posTrackId : Nat
  negTrackId : Nat
  bachelorId : Nat
  bachelorFromCharmBaryonId : Nat
  signDecay : Int
  etaV0PosDau : ℚ
  etaV0NegDau : ℚ
  etaBachFromCasc : ℚ
  etaBachFromCharmBaryon : ℚ
  xDecayVtxCascade : ℚ
  yDecayVtxCascade : ℚ
  xDecayVtxV0 : ℚ
  yDecayVtxV0 : ℚ
  cosPACasc : ℚ
  cosPAV0 : ℚ
  dcaCascDau : ℚ
  dcaV0Dau : ℚ
  dcaCharmBaryonDau : ℚ
  dcaXYToPvV0Dau0 : ℚ
  dcaXYToPvV0Dau1 : ℚ
  dcaXYToPvCascDau : ℚ
  impactParBachFromCharmBaryonXY : ℚ
  impactParBachFromCharmBaryonZ : ℚ
  impactParCascXY : ℚ
  impactParCascZ : ℚ
  pxBachFromCasc : ℚ
  pyBachFromCasc : ℚ
  pxBachFromCharmBaryon : ℚ
  pyBachFromCharmBaryon : ℚ
  invMassLambda : ℚ
  invMassCascade : ℚ
  invMassCharmBaryon : ℚ
deriving DecidableEq

/-- The configurables of `HfCandidateSelectorToXiPi` that its `process`
function reads (the PID σ-range configurables are consumed by the external
`TrackSelectorPID` collaborator in `init` and are absorbed into the abstract
PID interface below; `ptCandMin`/`ptCandMax` are declared by the struct but
never read in `process`). -/
structure Config where
  radiusCascMin : ℚ
  radiusV0Min : ℚ
  cosPAV0Min : ℚ
  cosPACascMin : ℚ
  dcaCascDauMax : ℚ
  dcaV0DauMax : ℚ
  dcaBachToPvMin : ℚ
  dcaNegToPvMin : ℚ
  dcaPosToPvMin : ℚ
  v0MassWindow : ℚ
  cascadeMassWindow : ℚ
  applyTrkSelLf : Bool
  invMassCharmBaryonMin : ℚ
  invMassCharmBaryonMax : ℚ
  etaTrackCharmBachMax : ℚ
  etaTrackLFDauMax : ℚ
  ptPiFromCascMin : ℚ
  ptPiFromCharmBaryonMin : ℚ
  impactParameterXYPiFromCharmBaryonMin : ℚ
  impactParameterXYPiFromCharmBaryonMax : ℚ
  impactParameterZPiFromCharmBaryonMin : ℚ
  impactParameterZPiFromCharmBaryonMax : ℚ
  impactParameterXYCascMin : ℚ
  impactParameterXYCascMax : ℚ
  impactParameterZCascMin : ℚ
  impactParameterZCascMax : ℚ
  dcaCharmBaryonDauMax : ℚ
  usePidTpcOnly : Bool
  usePidTpcTofCombined : Bool
  nClustersTpcMin : Int
  nTpcCrossedRowsMin : Int
  tpcCrossedRowsOverFindableClustersRatioMin : ℚ
  tpcChi2PerClusterMax : ℚ
  nClustersItsMin : Int
  nClustersItsInnBarrMin : Int
  itsChi2PerClusterMax : ℚ
deriving DecidableEq

/-- Modelled from the spec: the external PID-scoring collaborator
(`TrackSelectorPi`/`TrackSelectorPr` from `Common/Core/TrackSelectorPID.h`,
not part of this repository snapshot).  Per the spec it is modelled as a pure
interface: given a track it returns a verdict for the TPC-only mode
(`statusTpc`) or for the TPC-with-TOF-fallback mode (`statusTpcOrTof`). -/
structure PidSel where
  statusTpc : Track → Int
  statusTpcOrTof : Track → Int

/-- Modelled from the spec: the distinguished acceptance verdict
`TrackSelectorPID::Accepted` of the external PID-scoring collaborator. -/
def Accepted : Int := 1

/-- Modelled from the spec: reference Λ mass, the physical constant
`o2::constants::physics::MassLambda0` (external, not configurable). -/
def massLambdaFromPDG : ℚ := 1115683 / 1000000

/-- Modelled from the spec: reference Ξ⁻ mass, the physical constant
`o2::constants::physics::MassXiMinus` (external, not configurable). -/
def massXiFromPDG : ℚ := 132171 / 100000

/-- The histograms of the selector's registry (plus the standalone
`hInvMassCharmBaryon` output object). -/
inductive Hist where
  | hSelSignDec
  | hSelEtaPosV0Dau
  | hSelEtaNegV0Dau
  | hSelEtaPiFromCasc
  | hSelEtaPiFromCharm
  | hSelRadCasc
  | hSelRadV0
  | hSelCosPACasc
  | hSelCosPAV0
  | hSelDCACascDau
  | hSelDCAV0Dau
  | hSelDCACharmDau
  | hSelDcaXYToPvV0Daughters
  | hSelDcaXYToPvPiFromCasc
  | hSelDCAXYPrimPi
  | hSelDCAZPrimPi
  | hSelDCAXYCasc
  | hSelDCAZCasc
  | hSelPtPiFromCasc
  | hSelPtPiFromCharm
  | hSelTPCQualityPiFromLam
  | hSelTPCQualityPrFromLam
  | hSelTPCQualityPiFromCasc
  | hSelTPCQualityPiFromCharm
  | hSelITSQualityPiFromCharm
  | hStatusCheck
  | hSelMassLam
  | hSelMassCasc
  | hSelMassCharmBaryon
  | hSelPID
  | hInvMassCharmBaryon
deriving DecidableEq

/-- One histogram fill event: histogram and bin value. -/
abbrev Fill := Hist × ℚ

/-- Fill list guarded by a condition (a fill inside an `if`). -/
def condFills (b : Bool) (fs : List Fill) : List Fill :=
  if b then fs else []

/-- The pass/fail QA fill of one selection: bin 1 on pass, bin 0 on fail. -/
def tally (h : Hist) (pass : Bool) : Fill :=
  (h, if pass then 1 else 0)

/-- Boolean reflection of `RecoDecay::sqrtSumOfSquares(x, y) < r`: since
`sqrt (x^2 + y^2)` is nonnegative, it is `< r` exactly when `0 < r` and
`x^2 + y^2 < r^2`; this avoids an irrational square root. -/
def sqrtSumOfSquaresLt (x y r : ℚ) : Bool :=
  decide (0 < r) && decide (x * x + y * y < r * r)

/-- Modelled from the spec: `isSelectedTrackTpcQuality` from
`PWGHF/Utils/utilsAnalysis.h` (not part of this repository snapshot): minimum
TPC cluster count, minimum TPC crossed rows, minimum crossed-rows over
findable-clusters fraction, maximum TPC fit χ² per cluster. -/
def isSelectedTrackTpcQuality (t : Track) (nClsMin nRowsMin : Int)
    (nRowsOverFindableMin chi2Max : ℚ) : Bool :=
  decide (nClsMin ≤ t.tpcNClsFound) && decide (nRowsMin ≤ t.tpcNClsCrossedRows) &&
    decide (nRowsOverFindableMin ≤ t.tpcCrossedRowsOverFindableCls) &&
    decide (t.tpcChi2NCl ≤ chi2Max)

/-- Modelled from the spec: `isSelectedTrackItsQuality` from
`PWGHF/Utils/utilsAnalysis.h` (not part of this repository snapshot): minimum
ITS cluster count and maximum ITS fit χ² per cluster. -/
def isSelectedTrackItsQuality (t : Track) (nClsMin : Int) (chi2Max : ℚ) : Bool :=
  decide (nClsMin ≤ t.itsNCls) && decide (t.itsChi2NCl ≤ chi2Max)

/-- Role resolution (lines 216-223): `trackPiFromLam` starts as the negative
V0 daughter and is overwritten with the positive one exactly when
`signDecay > 0`. -/
def trackPiFromLam (lfTracks : Nat → Track) (c : Candidate) : Track :=
  if c.signDecay > 0 then lfTracks c.posTrackId else lfTracks c.negTrackId

/-- Role resolution (lines 217-223): `trackPrFromLam` starts as the positive
V0 daughter and is overwritten with the negative one exactly when
`signDecay > 0`. -/
def trackPrFromLam (lfTracks : Nat → Track) (c : Candidate) : Track :=
  if c.signDecay > 0 then lfTracks c.negTrackId else lfTracks c.posTrackId

/-- The `hSelSignDec` fills (lines 221-227): bin 1 when `signDecay > 0`,
bin 0 when `signDecay < 0`, nothing when it is zero. -/
def signFills (c : Candidate) : List Fill :=
  if c.signDecay > 0 then [(Hist.hSelSignDec, 1)]
  else if c.signDecay < 0 then [(Hist.hSelSignDec, 0)] else []

/-- Pass condition of the η cut on the positive V0 daughter (line 234). -/
def selEtaPosV0Dau (cfg : Config) (c : Candidate) : Bool :=
  !decide (|c.etaV0PosDau| > cfg.etaTrackLFDauMax)

/-- Pass condition of the η cut on the negative V0 daughter (line 240). -/
def selEtaNegV0Dau (cfg : Config) (c : Candidate) : Bool :=
  !decide (|c.etaV0NegDau| > cfg.etaTrackLFDauMax)

/-- Pass condition of the η cut on the cascade bachelor pion (line 246). -/
def selEtaPiFromCasc (cfg : Config) (c : Candidate) : Bool :=
  !decide (|c.etaBachFromCasc| > cfg.etaTrackLFDauMax)

/-- Pass condition of the η cut on the charm-baryon bachelor pion (line 252). -/
def selEtaPiFromCharm (cfg : Config) (c : Candidate) : Bool :=
  !decide (|c.etaBachFromCharmBaryon| > cfg.etaTrackCharmBachMax)

/-- Pass condition of the minimum cascade decay-radius cut (line 260). -/
def selRadCasc (cfg : Config) (c : Candidate) : Bool :=
  !sqrtSumOfSquaresLt c.xDecayVtxCascade c.yDecayVtxCascade cfg.radiusCascMin

/-- Pass condition of the minimum V0 decay-radius cut (line 266). -/
def selRadV0 (cfg : Config) (c : Candidate) : Bool :=
  !sqrtSumOfSquaresLt c.xDecayVtxV0 c.yDecayVtxV0 cfg.radiusV0Min

/-- Pass condition of the minimum cascade cosine-of-pointing-angle cut (line 274). -/
def selCosPACasc (cfg : Config) (c : Candidate) : Bool :=
  !decide (c.cosPACasc < cfg.cosPACascMin)

/-- Pass condition of the minimum V0 cosine-of-pointing-angle cut (line 280). -/
def selCosPAV0 (cfg : Config) (c : Candidate) : Bool :=
  !decide (c.cosPAV0 < cfg.cosPAV0Min)

/-- Pass condition of the maximum cascade-daughters DCA cut (line 288). -/
def selDcaCascDau (cfg : Config) (c : Candidate) : Bool :=
  !decide (c.dcaCascDau > cfg.dcaCascDauMax)

/-- Pass condition of the maximum V0-daughters DCA cut (line 295). -/
def selDcaV0Dau (cfg : Config) (c : Candidate) : Bool :=
  !decide (c.dcaV0Dau > cfg.dcaV0DauMax)

/-- Pass condition of the maximum charm-baryon-daughters DCA cut (line 303). -/
def selDcaCharmDau (cfg : Config) (c : Candidate) : Bool :=
  !decide (c.dcaCharmBaryonDau > cfg.dcaCharmBaryonDauMax)

/-- Pass condition of the minimum DCA-to-PV cut on the two V0 daughters
(line 311, a single combined selection). -/
def selDcaXYToPvV0Dau (cfg : Config) (c : Candidate) : Bool :=
  !(decide (|c.dcaXYToPvV0Dau0| < cfg.dcaPosToPvMin) ||
    decide (|c.dcaXYToPvV0Dau1| < cfg.dcaNegToPvMin))

/-- Pass condition of the minimum DCA-to-PV cut on the cascade bachelor (line 319). -/
def selDcaXYToPvCascDau (cfg : Config) (c : Candidate) : Bool :=
  !decide (|c.dcaXYToPvCascDau| < cfg.dcaBachToPvMin)

/-- Pass condition of the impact-parameter-XY range cut on the charm-baryon
bachelor pion (line 327). -/
def selImpactParamXYCharmBach (cfg : Config) (c : Candidate) : Bool :=
  !(decide (|c.impactParBachFromCharmBaryonXY| < cfg.impactParameterXYPiFromCharmBaryonMin) ||
    decide (|c.impactParBachFromCharmBaryonXY| > cfg.impactParameterXYPiFromCharmBaryonMax))

/-- Pass condition of the impact-parameter-Z range cut on the charm-baryon
bachelor pion (line 333). -/
def selImpactParamZCharmBach (cfg : Config) (c : Candidate) : Bool :=
  !(decide (|c.impactParBachFromCharmBaryonZ| < cfg.impactParameterZPiFromCharmBaryonMin) ||
    decide (|c.impactParBachFromCharmBaryonZ| > cfg.impactParameterZPiFromCharmBaryonMax))

/-- Pass condition of the impact-parameter-XY range cut on the cascade (line 341). -/
def selImpactParamXYCasc (cfg : Config) (c : Candidate) : Bool :=
  !(decide (|c.impactParCascXY| < cfg.impactParameterXYCascMin) ||
    decide (|c.impactParCascXY| > cfg.impactParameterXYCascMax))

/-- Pass condition of the impact-parameter-Z range cut on the cascade (line 347). -/
def selImpactParamZCasc (cfg : Config) (c : Candidate) : Bool :=
  !(decide (|c.impactParCascZ| < cfg.impactParameterZCascMin) ||
    decide (|c.impactParCascZ| > cfg.impactParameterZCascMax))

/-- Pass condition of the minimum pT cut on the cascade bachelor pion
(lines 355, 357); `std::abs` around the nonnegative pT is the identity, so
the cut is `sqrtSumOfSquares(px, py) < ptPiFromCascMin`. -/
def selPtPiFromCasc (cfg : Config) (c : Candidate) : Bool :=
  !sqrtSumOfSquaresLt c.pxBachFromCasc c.pyBachFromCasc cfg.ptPiFromCascMin

/-- Pass condition of the minimum pT cut on the charm-baryon bachelor pion
(lines 356, 363). -/
def selPtPiFromCharm (cfg : Config) (c : Candidate) : Bool :=
  !sqrtSumOfSquaresLt c.pxBachFromCharmBaryon c.pyBachFromCharmBaryon cfg.ptPiFromCharmBaryonMin

/-- TPC track-quality pass condition with the selector's configured
thresholds (lines 372, 378, 384, 391). -/
def selTpcQuality (cfg : Config) (t : Track) : Bool :=
  isSelectedTrackTpcQuality t cfg.nClustersTpcMin cfg.nTpcCrossedRowsMin
    cfg.tpcCrossedRowsOverFindableClustersRatioMin cfg.tpcChi2PerClusterMax

/-- ITS track-quality pass condition on the charm-baryon bachelor (line 399):
`isSelectedTrackItsQuality` plus the inner-barrel cluster minimum. -/
def selItsQualityCharmBach (cfg : Config) (t : Track) : Bool :=
  !(!isSelectedTrackItsQuality t cfg.nClustersItsMin cfg.itsChi2PerClusterMax ||
    decide (t.itsNClsInnerBarrel < cfg.nClustersItsInnBarrMin))

/-- The ordered list of topological/kinematic/quality selections of `process`
(lines 229-404): each entry is the pass condition paired with its QA
histogram; the three light-flavor TPC-quality selections are present exactly
when `applyTrkSelLf` is set. -/
def cutList (cfg : Config) (tracks lfTracks : Nat → Track) (c : Candidate) :
    List (Bool × Hist) :=
  [(selEtaPosV0Dau cfg c, Hist.hSelEtaPosV0Dau),
   (selEtaNegV0Dau cfg c, Hist.hSelEtaNegV0Dau),
   (selEtaPiFromCasc cfg c, Hist.hSelEtaPiFromCasc),
   (selEtaPiFromCharm cfg c, Hist.hSelEtaPiFromCharm),
   (selRadCasc cfg c, Hist.hSelRadCasc),
   (selRadV0 cfg c, Hist.hSelRadV0),
   (selCosPACasc cfg c, Hist.hSelCosPACasc),
   (selCosPAV0 cfg c, Hist.hSelCosPAV0),
   (selDcaCascDau cfg c, Hist.hSelDCACascDau),
   (selDcaV0Dau cfg c, Hist.hSelDCAV0Dau),
   (selDcaCharmDau cfg c, Hist.hSelDCACharmDau),
   (selDcaXYToPvV0Dau cfg c, Hist.hSelDcaXYToPvV0Daughters),
   (selDcaXYToPvCascDau cfg c, Hist.hSelDcaXYToPvPiFromCasc),
   (selImpactParamXYCharmBach cfg c, Hist.hSelDCAXYPrimPi),
   (selImpactParamZCharmBach cfg c, Hist.hSelDCAZPrimPi),
   (selImpactParamXYCasc cfg c, Hist.hSelDCAXYCasc),
   (selImpactParamZCasc cfg c, Hist.hSelDCAZCasc),
   (selPtPiFromCasc cfg c, Hist.hSelPtPiFromCasc),
   (selPtPiFromCharm cfg c, Hist.hSelPtPiFromCharm)] ++
  (if cfg.applyTrkSelLf then
    [(selTpcQuality cfg (trackPiFromLam lfTracks c), Hist.hSelTPCQualityPiFromLam),
     (selTpcQuality cfg (trackPrFromLam lfTracks c), Hist.hSelTPCQualityPrFromLam),
     (selTpcQuality cfg (lfTracks c.bachelorId), Hist.hSelTPCQualityPiFromCasc)]
   else []) ++
  [(selTpcQuality cfg (tracks c.bachelorFromCharmBaryonId), Hist.hSelTPCQualityPiFromCharm),
   (selItsQualityCharmBach cfg (tracks c.bachelorFromCharmBaryonId), Hist.hSelITSQualityPiFromCharm)]

/-- The topological/kinematic part of `process` (lines 205-404): the running
boolean `resultSelections` (initialised `true`, knocked to `false` by every
failing selection) and the QA fills performed, in program order. -/
def candTopo (cfg : Config) (tracks lfTracks : Nat → Track) (c : Candidate) :
    Bool × List Fill :=
  ((cutList cfg tracks lfTracks c).foldl (fun b p => b && p.1) true,
   signFills c ++ (cutList cfg tracks lfTracks c).map (fun p => tally p.2 p.1))

/-- PID verdict for one track (lines 450-460): `statusTpc` in TPC-only mode,
`statusTpcOrTof` in combined mode, otherwise the initialisation value -999
(unreachable after the fatal configuration check). -/
def statusPidTrack (cfg : Config) (sel : PidSel) (t : Track) : Int :=
  if cfg.usePidTpcOnly then sel.statusTpc t
  else if cfg.usePidTpcTofCombined then sel.statusTpcOrTof t
  else -999

/-- PID verdict for the proton from the Λ. -/
def statusPidPrFromLam (cfg : Config) (selectorProton : PidSel)
    (lfTracks : Nat → Track) (c : Candidate) : Int :=
  statusPidTrack cfg selectorProton (trackPrFromLam lfTracks c)

/-- PID verdict for the pion from the Λ. -/
def statusPidPiFromLam (cfg : Config) (selectorPion : PidSel)
    (lfTracks : Nat → Track) (c : Candidate) : Int :=
  statusPidTrack cfg selectorPion (trackPiFromLam lfTracks c)

/-- PID verdict for the pion from the cascade. -/
def statusPidPiFromCasc (cfg : Config) (selectorPion : PidSel)
    (lfTracks : Nat → Track) (c : Candidate) : Int :=
  statusPidTrack cfg selectorPion (lfTracks c.bachelorId)

/-- PID verdict for the pion from the charm baryon. -/
def statusPidPiFromCharmBaryon (cfg : Config) (selectorPion : PidSel)
    (tracks : Nat → Track) (c : Candidate) : Int :=
  statusPidTrack cfg selectorPion (tracks c.bachelorFromCharmBaryonId)

/-- Λ-consistency composite PID flag (line 462). -/
def statusPidLambdaOf (cfg : Config) (selectorPion selectorProton : PidSel)
    (lfTracks : Nat → Track) (c : Candidate) : Bool :=
  decide (statusPidPrFromLam cfg selectorProton lfTracks c = Accepted) &&
    decide (statusPidPiFromLam cfg selectorPion lfTracks c = Accepted)

/-- Cascade-consistency composite PID flag (line 469). -/
def statusPidCascadeOf (cfg : Config) (selectorPion selectorProton : PidSel)
    (lfTracks : Nat → Track) (c : Candidate) : Bool :=
  decide (statusPidPrFromLam cfg selectorProton lfTracks c = Accepted) &&
    decide (statusPidPiFromLam cfg selectorPion lfTracks c = Accepted) &&
    decide (statusPidPiFromCasc cfg selectorPion lfTracks c = Accepted)

/-- Charm-baryon-consistency composite PID flag (line 476). -/
def statusPidCharmBaryonOf (cfg : Config) (selectorPion selectorProton : PidSel)
    (tracks lfTracks : Nat → Track) (c : Candidate) : Bool :=
  decide (statusPidPrFromLam cfg selectorProton lfTracks c = Accepted) &&
    decide (statusPidPiFromLam cfg selectorPion lfTracks c = Accepted) &&
    decide (statusPidPiFromCasc cfg selectorPion lfTracks c = Accepted) &&
    decide (statusPidPiFromCharmBaryon cfg selectorPion tracks c = Accepted)

/-- Λ mass-window flag (line 492): strict symmetric window around the PDG mass. -/
def statusInvMassLambdaOf (cfg : Config) (c : Candidate) : Bool :=
  decide (|c.invMassLambda - massLambdaFromPDG| < cfg.v0MassWindow)

/-- Cascade mass-window flag (line 502): strict symmetric window around the PDG mass. -/
def statusInvMassCascadeOf (cfg : Config) (c : Candidate) : Bool :=
  decide (|c.invMassCascade - massXiFromPDG| < cfg.cascadeMassWindow)

/-- Charm-baryon mass flag (line 512): closed configured interval. -/
def statusInvMassCharmBaryonOf (cfg : Config) (c : Candidate) : Bool :=
  decide (c.invMassCharmBaryon ≥ cfg.invMassCharmBaryonMin) &&
    decide (c.invMassCharmBaryon ≤ cfg.invMassCharmBaryonMax)

/-- TPC detector-presence bitmask (lines 425-436): bit positions follow the
`PidInfoStored` enum (PiFromLam = 0, PrFromLam = 1, PiFromCasc = 2,
PiFromCharm = 3). -/
def infoTpcStoredOf (tracks lfTracks : Nat → Track) (c : Candidate) : Nat :=
  (if (trackPiFromLam lfTracks c).hasTPC then 1 else 0) |||
  (if (trackPrFromLam lfTracks c).hasTPC then 2 else 0) |||
  (if (lfTracks c.bachelorId).hasTPC then 4 else 0) |||
  (if (tracks c.bachelorFromCharmBaryonId).hasTPC then 8 else 0)

/-- TOF detector-presence bitmask (lines 437-448). -/
def infoTofStoredOf (tracks lfTracks : Nat → Track) (c : Candidate) : Nat :=
  (if (trackPiFromLam lfTracks c).hasTOF then 1 else 0) |||
  (if (trackPrFromLam lfTracks c).hasTOF then 2 else 0) |||
  (if (lfTracks c.bachelorId).hasTOF then 4 else 0) |||
  (if (tracks c.bachelorFromCharmBaryonId).hasTOF then 8 else 0)

/-- One row of the produced `aod::HfSelToXiPi` table (line 522). -/
structure SelOutcome where
  statusPidLambda : Bool
  statusPidCascade : Bool
  statusPidCharmBaryon : Bool
  statusInvMassLambda : Bool
  statusInvMassCascade : Bool
  statusInvMassCharmBaryon : Bool
  resultSelections : Bool
  infoTpcStored : Nat
  infoTofStored : Nat
  nSigTpcPiFromCharmBaryon : ℚ
  nSigTpcPiFromCasc : ℚ
  nSigTpcPiFromLam : ℚ
  nSigTpcPrFromLam : ℚ
  nSigTofPiFromCharmBaryon : ℚ
  nSigTofPiFromCasc : ℚ
  nSigTofPiFromLam : ℚ
  nSigTofPrFromLam : ℚ
deriving DecidableEq

/-- The fills performed after the fatal PID-configuration check, in program
order (lines 462-567): the `hStatusCheck` fills of the composite PID flags,
the mass-window QA fills interleaved with their `hStatusCheck` fills, the
`hSelPID` block and the final `hInvMassCharmBaryon` fill.  The twelve
pairwise-exclusive `hSelPID` fills (lines 526-563) are written as six fills
choosing the pass or fail bin of each flag. -/
def pidMassFills (cfg : Config) (selectorPion selectorProton : PidSel)
    (tracks lfTracks : Nat → Track) (c : Candidate) (resultSelections : Bool) :
    List Fill :=
  condFills (statusPidLambdaOf cfg selectorPion selectorProton lfTracks c && resultSelections)
    [(Hist.hStatusCheck, 1/2)] ++
  condFills (statusPidCascadeOf cfg selectorPion selectorProton lfTracks c && resultSelections)
    [(Hist.hStatusCheck, 3/2)] ++
  condFills (statusPidCharmBaryonOf cfg selectorPion selectorProton tracks lfTracks c && resultSelections)
    [(Hist.hStatusCheck, 5/2)] ++
  [tally Hist.hSelMassLam (statusInvMassLambdaOf cfg c)] ++
  condFills (statusInvMassLambdaOf cfg c && statusPidLambdaOf cfg selectorPion selectorProton lfTracks c &&
    statusPidCascadeOf cfg selectorPion selectorProton lfTracks c &&
    statusPidCharmBaryonOf cfg selectorPion selectorProton tracks lfTracks c && resultSelections)
    [(Hist.hStatusCheck, 7/2)] ++
  [tally Hist.hSelMassCasc (statusInvMassCascadeOf cfg c)] ++
  condFills (statusInvMassCascadeOf cfg c && statusPidLambdaOf cfg selectorPion selectorProton lfTracks c &&
    statusPidCascadeOf cfg selectorPion selectorProton lfTracks c &&
    statusPidCharmBaryonOf cfg selectorPion selectorProton tracks lfTracks c &&
    statusInvMassLambdaOf cfg c && resultSelections)
    [(Hist.hStatusCheck, 9/2)] ++
  [tally Hist.hSelMassCharmBaryon (statusInvMassCharmBaryonOf cfg c)] ++
  condFills (statusInvMassCharmBaryonOf cfg c && statusPidLambdaOf cfg selectorPion selectorProton lfTracks c &&
    statusPidCascadeOf cfg selectorPion selectorProton lfTracks c &&
    statusPidCharmBaryonOf cfg selectorPion selectorProton tracks lfTracks c &&
    statusInvMassLambdaOf cfg c && statusInvMassCascadeOf cfg c && resultSelections)
    [(Hist.hStatusCheck, 11/2)] ++
  condFills resultSelections
    [(Hist.hSelPID, if statusPidLambdaOf cfg selectorPion selectorProton lfTracks c then 3/2 else 1/2),
     (Hist.hSelPID, if statusPidCascadeOf cfg selectorPion selectorProton lfTracks c then 7/2 else 5/2),
     (Hist.hSelPID, if statusPidCharmBaryonOf cfg selectorPion selectorProton tracks lfTracks c then 11/2 else 9/2),
     (Hist.hSelPID, if statusInvMassLambdaOf cfg c then 15/2 else 13/2),
     (Hist.hSelPID, if statusInvMassCascadeOf cfg c then 19/2 else 17/2),
     (Hist.hSelPID, if statusInvMassCharmBaryonOf cfg c then 23/2 else 21/2)] ++
  condFills (statusPidLambdaOf cfg selectorPion selectorProton lfTracks c &&
    statusPidCascadeOf cfg selectorPion selectorProton lfTracks c &&
    statusPidCharmBaryonOf cfg selectorPion selectorProton tracks lfTracks c &&
    statusInvMassLambdaOf cfg c && statusInvMassCascadeOf cfg c &&
    statusInvMassCharmBaryonOf cfg c && resultSelections)
    [(Hist.hInvMassCharmBaryon, c.invMassCharmBaryon)]

/-- The part of the candidate loop after the fatal PID-configuration check
(lines 425-567): detector bitmasks, PID verdicts, composite PID flags, mass
windows, the emitted outcome record, and the remaining fills in program
order. -/
def candPidMass (cfg : Config) (selectorPion selectorProton : PidSel)
    (tracks lfTracks : Nat → Track) (c : Candidate) (resultSelections : Bool) :
    SelOutcome × List Fill :=
  (⟨statusPidLambdaOf cfg selectorPion selectorProton lfTracks c,
    statusPidCascadeOf cfg selectorPion selectorProton lfTracks c,
    statusPidCharmBaryonOf cfg selectorPion selectorProton tracks lfTracks c,
    statusInvMassLambdaOf cfg c, statusInvMassCascadeOf cfg c,
    statusInvMassCharmBaryonOf cfg c,
    resultSelections,
    infoTpcStoredOf tracks lfTracks c, infoTofStoredOf tracks lfTracks c,
    (tracks c.bachelorFromCharmBaryonId).tpcNSigmaPi,
    (lfTracks c.bachelorId).tpcNSigmaPi,
    (trackPiFromLam lfTracks c).tpcNSigmaPi,
    (trackPrFromLam lfTracks c).tpcNSigmaPr,
    (tracks c.bachelorFromCharmBaryonId).tofNSigmaPi,
    (lfTracks c.bachelorId).tofNSigmaPi,
    (trackPiFromLam lfTracks c).tofNSigmaPi,
    (trackPrFromLam lfTracks c).tofNSigmaPr⟩,
   pidMassFills cfg selectorPion selectorProton tracks lfTracks c resultSelections)

/-- The outcome record emitted for a candidate (when no abort occurs). -/
def candOutcome (cfg : Config) (selectorPion selectorProton : PidSel)
    (tracks lfTracks : Nat → Track) (c : Candidate) : SelOutcome :=
  (candPidMass cfg selectorPion selectorProton tracks lfTracks c
    (candTopo cfg tracks lfTracks c).1).1

/-- All fills performed for a candidate (when no abort occurs), in program order. -/
def candFills (cfg : Config) (selectorPion selectorProton : PidSel)
    (tracks lfTracks : Nat → Track) (c : Candidate) : List Fill :=
  (candTopo cfg tracks lfTracks c).2 ++
  (candPidMass cfg selectorPion selectorProton tracks lfTracks c
    (candTopo cfg tracks lfTracks c).1).2

/-- One iteration of the candidate loop (lines 203-567): topological
selections first, then the fatal PID-configuration check of line 421
(`usePidTpcOnly == usePidTpcTofCombined` aborts, carrying the fills already
performed), then PID, mass windows and the emitted record. -/
def processCandidate (cfg : Config) (selectorPion selectorProton : PidSel)
    (tracks lfTracks : Nat → Track) (c : Candidate) :
    Except (List Fill) (SelOutcome × List Fill) :=
  let topo := candTopo cfg tracks lfTracks c
  if cfg.usePidTpcOnly = cfg.usePidTpcTofCombined then
    Except.error topo.2
  else
    Except.ok ((candPidMass cfg selectorPion selectorProton tracks lfTracks c topo.1).1,
      topo.2 ++ (candPidMass cfg selectorPion selectorProton tracks lfTracks c topo.1).2)

/-- The full `process` function: the loop over the candidate table, emitting
one record per candidate, aborting the run on the fatal configuration check.
The error value carries all fills performed before the abort. -/
def processCandidates (cfg : Config) (selectorPion selectorProton : PidSel)
    (tracks lfTracks : Nat → Track) :
    List Candidate → Except (List Fill) (List SelOutcome × List Fill)
  | [] => Except.ok ([], [])
  | c :: cs =>
    match processCandidate cfg selectorPion selectorProton tracks lfTracks c with
    | Except.error fs => Except.error fs
    | Except.ok (out, fs) =>
      match processCandidates cfg selectorPion selectorProton tracks lfTracks cs with
      | Except.error fs2 => Except.error (fs ++ fs2)
      | Except.ok (outs, fs2) => Except.ok (out :: outs, fs ++ fs2)

/-- The emitted records of a run (empty when the run aborted). -/
def okOuts (e : Except (List Fill) (List SelOutcome × List Fill)) : List SelOutcome :=
  match e with
  | Except.ok (outs, _) => outs
  | Except.error _ => []

/-- Whether the run aborted. -/
def isErr (e : Except (List Fill) (List SelOutcome × List Fill)) : Bool :=
  match e with
  | Except.ok _ => false
  | Except.error _ => true

/-- The fills performed before an abort (empty for a completed run). -/
def errFills (e : Except (List Fill) (List SelOutcome × List Fill)) : List Fill :=
  match e with
  | Except.ok _ => []
  | Except.error fs => fs

end ToXiPi

namespace VertexerHF

/-- Track record of `src/Tasks/vertexerhf.cxx`: the local track parameters
read by `VertexerHFTask::process` (the covariance entries are consumed only
by the external DCA fitter, which is abstracted below, so they are not
enumerated). -/
structure VTrack where
  x : ℚ
  alpha : ℚ
  y : ℚ
  z : ℚ
  snp : ℚ
  tgl : ℚ
  signed1Pt : ℚ
deriving DecidableEq

/-- One PCA candidate returned by the external fitter
(`o2::base::DCAFitter::Triplet`). -/
structure Triplet where
  x : ℚ
  y : ℚ
  z : ℚ
deriving DecidableEq

/-- One row of the produced `aod::SecVtx` table. -/
structure SecVtxRec where
  posx : ℚ
  posy : ℚ
  index0 : Int
  index1 : Int
  index2 : Int
  tracky0 : ℚ
  tracky1 : ℚ
  tracky2 : ℚ
deriving DecidableEq

/-- The records emitted for one ordered track pair (lines 103-111): one row
per PCA candidate of the external fit, with the pair's table indices, the
sentinel third index -1, the two daughter `y` values and the sentinel -1. -/
def emitPair (fit : VTrack → VTrack → List Triplet) (i j : Nat) (t0 t1 : VTrack) :
    List SecVtxRec :=
  (fit t0 t1).map fun v => ⟨v.x, v.y, (i : Int), (j : Int), -1, t0.y, t1.y, -1⟩

/-- The inner loop (line 92): `it_1` runs from the successor of `it_0` to the
end; `j` is the table index of the head of the remaining list. -/
def innerLoop (fit : VTrack → VTrack → List Triplet) (i : Nat) (t0 : VTrack) :
    Nat → List VTrack → List SecVtxRec
  | _, [] => []
  | j, t1 :: ts => emitPair fit i j t0 t1 ++ innerLoop fit i t0 (j + 1) ts

/-- The outer loop (line 81): `it_0` runs over all tracks; `i` is the table
index of the head of the remaining list. -/
def outerLoop (fit : VTrack → VTrack → List Triplet) :
    Nat → List VTrack → List SecVtxRec
  | _, [] => []
  | i, t0 :: ts => innerLoop fit i t0 (i + 1) ts ++ outerLoop fit (i + 1) ts

/-- `VertexerHFTask::process`: all `secvtx` rows emitted for one collision's
track table, in emission order.  The DCA fitter is abstracted as a function
from the two tracks to the list of its PCA candidates. -/
def vertexerProcess (fit : VTrack → VTrack → List Triplet) (tracks : List VTrack) :
    List SecVtxRec :=
  outerLoop fit 0 tracks

/-- A default track value used for out-of-range list lookups in statements. -/
def vtrack0 : VTrack := ⟨0, 0, 0, 0, 0, 0, 0⟩

/-- The Boolean test selecting the records of one index pair. -/
def pairPred (tI tJ : Nat) (r : SecVtxRec) : Bool :=
  decide (r.index0 = (tI : Int)) && decide (r.index1 = (tJ : Int))

/-- A fitter that always returns one PCA candidate, for concrete evaluation. -/
def fitOne : VTrack → VTrack → List Triplet := fun _ _ => [⟨1/10, 2/10, 3/10⟩]

/-- Two concrete tracks, for concrete evaluation. -/
def tracksTwo : List VTrack := [⟨0, 0, 1, 0, 0, 0, 0⟩, ⟨0, 0, 2, 0, 0, 0, 0⟩]

end VertexerHF

namespace ToXiPi

/-- The overall topological/kinematic flag as the SPEC describes it (claim
C1): the conjunction of all the individual geometric, kinematic and
detector-quality predicates, with the three light-flavor TPC-quality
predicates included only when `applyTrkSelLf` is set. -/
def specTopoConjunction (cfg : Config) (tracks lfTracks : Nat → Track)
    (c : Candidate) : Bool :=
  selEtaPosV0Dau cfg c && selEtaNegV0Dau cfg c && selEtaPiFromCasc cfg c &&
    selEtaPiFromCharm cfg c && selRadCasc cfg c && selRadV0 cfg c &&
    selCosPACasc cfg c && selCosPAV0 cfg c && selDcaCascDau cfg c &&
    selDcaV0Dau cfg c && selDcaCharmDau cfg c && selDcaXYToPvV0Dau cfg c &&
    selDcaXYToPvCascDau cfg c && selImpactParamXYCharmBach cfg c &&
    selImpactParamZCharmBach cfg c && selImpactParamXYCasc cfg c &&
    selImpactParamZCasc cfg c && selPtPiFromCasc cfg c && selPtPiFromCharm cfg c &&
    (if cfg.applyTrkSelLf then
      selTpcQuality cfg (trackPiFromLam lfTracks c) &&
        selTpcQuality cfg (trackPrFromLam lfTracks c) &&
        selTpcQuality cfg (lfTracks c.bachelorId)
     else true) &&
    selTpcQuality cfg (tracks c.bachelorFromCharmBaryonId) &&
    selItsQualityCharmBach cfg (tracks c.bachelorFromCharmBaryonId)

/-- The default values of the selector's configurables (a valid PID
configuration: TPC-with-TOF mode only). -/
def cfgDefault : Config :=
  ⟨3/5, 6/5, 97/100, 97/100, 1, 1, 1/25, 3/50, 3/50, 1/100, 1/100, true,
   2, 31/10, 4/5, 1, 3/20, 1/5, 0, 10, 0, 10, 0, 10, 0, 10, 2,
   false, true, 70, 70, 4/5, 4, 3, 1, 36⟩

/-- An invalid PID configuration: both mode switches set. -/
def cfgBothTrue : Config := { cfgDefault with usePidTpcOnly := true }

/-- A concrete track passing every detector-quality requirement. -/
def trackGood : Track := ⟨true, true, 100, 100, 1, 1, 5, 1, 2, 0, 0, 0, 0⟩

/-- A concrete track table assigning a distinct pion σ to each index. -/
def trkMapG : Nat → Track := fun n => { trackGood with tpcNSigmaPi := (n : ℚ) }

/-- A PID interface accepting every track in both modes. -/
def selAcc : PidSel := ⟨fun _ => Accepted, fun _ => Accepted⟩

/-- A concrete candidate passing every selection under `cfgDefault`. -/
def candGood : Candidate :=
  ⟨0, 1, 2, 3, -1, 0, 0, 0, 0, 1, 0, 2, 0, 1, 1, 0, 0, 0, 1, 1, 1, 1, 1, 1, 1,
   1, 0, 1, 0, massLambdaFromPDG, massXiFromPDG, 5/2⟩

/-- `candGood` with a positive decay sign. -/
def candSignPos : Candidate := { candGood with signDecay := 1 }

/-- `candGood` with decay sign exactly zero. -/
def candSignZero : Candidate := { candGood with signDecay := 0 }

/-- `candGood` with a cascade decay radius of 0.5, below the configured
minimum 0.6 of `cfgDefault`. -/
def candBadRadius : Candidate := { candGood with xDecayVtxCascade := 1/2 }

/-- `candGood` with the Λ mass exactly at the upper window boundary. -/
def candLamBoundary : Candidate :=
  { candGood with invMassLambda := massLambdaFromPDG + 1/100 }

/-- `candGood` with the cascade mass exactly at the upper window boundary. -/
def candCascBoundary : Candidate :=
  { candGood with invMassCascade := massXiFromPDG + 1/100 }

/-- `candGood` with the charm-baryon mass exactly at the interval's lower end. -/
def candCharmAtMin : Candidate := { candGood with invMassCharmBaryon := 2 }

/-- `candGood` with the charm-baryon mass exactly at the interval's upper end. -/
def candCharmAtMax : Candidate := { candGood with invMassCharmBaryon := 31/10 }

end ToXiPi

namespace VertexerHF

/-- The single record `vertexerProcess fitOne tracksTwo` emits. -/
def rec01 : SecVtxRec := ⟨1/10, 2/10, 0, 1, -1, 1, 2, -1⟩

end VertexerHF

namespace ToXiPi

lemma candOutcome_statusPidLambda (cfg : Config) (selectorPion selectorProton : PidSel)
    (tracks lfTracks : Nat → Track) (c : Candidate) :
    (candOutcome cfg selectorPion selectorProton tracks lfTracks c).statusPidLambda =
      statusPidLambdaOf cfg selectorPion selectorProton lfTracks c := rfl

lemma candOutcome_statusPidCascade (cfg : Config) (selectorPion selectorProton : PidSel)
    (tracks lfTracks : Nat → Track) (c : Candidate) :
    (candOutcome cfg selectorPion selectorProton tracks lfTracks c).statusPidCascade =
      statusPidCascadeOf cfg selectorPion selectorProton lfTracks c := rfl

lemma candOutcome_statusPidCharmBaryon (cfg : Config) (selectorPion selectorProton : PidSel)
    (tracks lfTracks : Nat → Track) (c : Candidate) :
    (candOutcome cfg selectorPion selectorProton tracks lfTracks c).statusPidCharmBaryon =
      statusPidCharmBaryonOf cfg selectorPion selectorProton tracks lfTracks c := rfl

lemma candOutcome_statusInvMassLambda (cfg : Config) (selectorPion selectorProton : PidSel)
    (tracks lfTracks : Nat → Track) (c : Candidate) :
    (candOutcome cfg selectorPion selectorProton tracks lfTracks c).statusInvMassLambda =
      statusInvMassLambdaOf cfg c := rfl

lemma candOutcome_statusInvMassCascade (cfg : Config) (selectorPion selectorProton : PidSel)
    (tracks lfTracks : Nat → Track) (c : Candidate) :
    (candOutcome cfg selectorPion selectorProton tracks lfTracks c).statusInvMassCascade =
      statusInvMassCascadeOf cfg c := rfl

lemma candOutcome_statusInvMassCharmBaryon (cfg : Config) (selectorPion selectorProton : PidSel)
    (tracks lfTracks : Nat → Track) (c : Candidate) :
    (candOutcome cfg selectorPion selectorProton tracks lfTracks c).statusInvMassCharmBaryon =
      statusInvMassCharmBaryonOf cfg c := rfl

lemma candOutcome_resultSelections (cfg : Config) (selectorPion selectorProton : PidSel)
    (tracks lfTracks : Nat → Track) (c : Candidate) :
    (candOutcome cfg selectorPion selectorProton tracks lfTracks c).resultSelections =
      (candTopo cfg tracks lfTracks c).1 := rfl

lemma candTopo_snd (cfg : Config) (tracks lfTracks : Nat → Track) (c : Candidate) :
    (candTopo cfg tracks lfTracks c).2 =
      signFills c ++ (cutList cfg tracks lfTracks c).map (fun p => tally p.2 p.1) := rfl

lemma candTopo_fst (cfg : Config) (tracks lfTracks : Nat → Track) (c : Candidate) :
    (candTopo cfg tracks lfTracks c).1 = specTopoConjunction cfg tracks lfTracks c := by
  cases h : cfg.applyTrkSelLf <;>
    simp [candTopo, cutList, specTopoConjunction, h, Bool.and_assoc]

lemma processCandidate_valid (cfg : Config) (selectorPion selectorProton : PidSel)
    (tracks lfTracks : Nat → Track) (c : Candidate)
    (h : cfg.usePidTpcOnly ≠ cfg.usePidTpcTofCombined) :
    processCandidate cfg selectorPion selectorProton tracks lfTracks c =
      Except.ok (candOutcome cfg selectorPion selectorProton tracks lfTracks c,
        candFills cfg selectorPion selectorProton tracks lfTracks c) := by
  simp [processCandidate, candOutcome, candFills, h]

lemma processCandidates_valid (cfg : Config) (selectorPion selectorProton : PidSel)
    (tracks lfTracks : Nat → Track)
    (h : cfg.usePidTpcOnly ≠ cfg.usePidTpcTofCombined) (cands : List Candidate) :
    processCandidates cfg selectorPion selectorProton tracks lfTracks cands =
      Except.ok (cands.map (candOutcome cfg selectorPion selectorProton tracks lfTracks),
        (cands.map (candFills cfg selectorPion selectorProton tracks lfTracks)).flatten) := by
  induction cands with
  | nil => simp [processCandidates]
  | cons c cs ih =>
    simp [processCandidates, processCandidate_valid cfg selectorPion selectorProton tracks lfTracks c h, ih]

lemma processCandidates_invalid (cfg : Config) (selectorPion selectorProton : PidSel)
    (tracks lfTracks : Nat → Track)
    (h : cfg.usePidTpcOnly = cfg.usePidTpcTofCombined) (c : Candidate) (cs : List Candidate) :
    processCandidates cfg selectorPion selectorProton tracks lfTracks (c :: cs) =
      Except.error (candTopo cfg tracks lfTracks c).2 := by
  simp [processCandidates, processCandidate, h]

/-- Claim C1: for every candidate evaluated under a valid PID configuration,
the overall topological/kinematic flag `resultSelections` of the emitted
outcome record equals the conjunction of all the individual geometric,
kinematic and detector-quality predicates, with the light-flavor TPC-quality
predicates included in the conjunction exactly when `applyTrkSelLf` is set. -/
theorem resultSelections_eq_conjunction (cfg : Config)
    (selectorPion selectorProton : PidSel) (tracks lfTracks : Nat → Track)
    (c : Candidate) (hvalid : cfg.usePidTpcOnly ≠ cfg.usePidTpcTofCombined) :
    processCandidate cfg selectorPion selectorProton tracks lfTracks c =
      Except.ok (candOutcome cfg selectorPion selectorProton tracks lfTracks c,
        candFills cfg selectorPion selectorProton tracks lfTracks c) ∧
    (candOutcome cfg selectorPion selectorProton tracks lfTracks c).resultSelections =
      specTopoConjunction cfg tracks lfTracks c :=
  ⟨processCandidate_valid cfg selectorPion selectorProton tracks lfTracks c hvalid,
   candTopo_fst cfg tracks lfTracks c⟩

/-- Witness for claim C1 at the default configuration and a concrete candidate. -/
theorem resultSelections_eq_conjunction_witness :
    processCandidate cfgDefault selAcc selAcc trkMapG trkMapG candGood =
      Except.ok (candOutcome cfgDefault selAcc selAcc trkMapG trkMapG candGood,
        candFills cfgDefault selAcc selAcc trkMapG trkMapG candGood) ∧
    (candOutcome cfgDefault selAcc selAcc trkMapG trkMapG candGood).resultSelections =
      specTopoConjunction cfgDefault trkMapG trkMapG candGood :=
  resultSelections_eq_conjunction cfgDefault selAcc selAcc trkMapG trkMapG candGood (by decide)

/-- Claim C2 (amended): a valid PID configuration never aborts and every
candidate yields a record; an invalid PID configuration aborts fatally while
evaluating the first candidate — after that candidate's topological
evaluation and diagnostic tallies, before any PID evaluation and before any
outcome record is emitted — and a run with no candidates performs no abort. -/
theorem pid_misconfig_abort (cfg : Config) (selectorPion selectorProton : PidSel)
    (tracks lfTracks : Nat → Track) :
    (cfg.usePidTpcOnly ≠ cfg.usePidTpcTofCombined →
      ∀ cands, processCandidates cfg selectorPion selectorProton tracks lfTracks cands =
        Except.ok (cands.map (candOutcome cfg selectorPion selectorProton tracks lfTracks),
          (cands.map (candFills cfg selectorPion selectorProton tracks lfTracks)).flatten)) ∧
    (cfg.usePidTpcOnly = cfg.usePidTpcTofCombined →
      ∀ c cs, processCandidates cfg selectorPion selectorProton tracks lfTracks (c :: cs) =
        Except.error (candTopo cfg tracks lfTracks c).2) :=
  ⟨fun h cands => processCandidates_valid cfg selectorPion selectorProton tracks lfTracks h cands,
   fun h c cs => processCandidates_invalid cfg selectorPion selectorProton tracks lfTracks h c cs⟩

/-- Counterexample for claim C2 as stated: under the invalid configuration
with both PID switches set, a run with no candidates does not abort at all,
and a run with one candidate performs 25 diagnostic tallies (the sign-decay
fill and the 24 topological QA fills of the first candidate) before the
abort, so candidate evaluation work does occur before the abort. -/
theorem pid_misconfig_abort_claim_false :
    processCandidates cfgBothTrue selAcc selAcc trkMapG trkMapG [] = Except.ok ([], []) ∧
    isErr (processCandidates cfgBothTrue selAcc selAcc trkMapG trkMapG [candGood]) = true ∧
    (errFills (processCandidates cfgBothTrue selAcc selAcc trkMapG trkMapG [candGood])).length = 25 := by
  refine ⟨rfl, ?_, ?_⟩ <;> decide

/-- Witness for claim C2 on both sides of the configuration check. -/
theorem pid_misconfig_abort_witness :
    processCandidates cfgDefault selAcc selAcc trkMapG trkMapG [candGood] =
      Except.ok ([candGood].map (candOutcome cfgDefault selAcc selAcc trkMapG trkMapG),
        ([candGood].map (candFills cfgDefault selAcc selAcc trkMapG trkMapG)).flatten) ∧
    processCandidates cfgBothTrue selAcc selAcc trkMapG trkMapG [candGood] =
      Except.error (candTopo cfgBothTrue trkMapG trkMapG candGood).2 :=
  ⟨(pid_misconfig_abort cfgDefault selAcc selAcc trkMapG trkMapG).1 (by decide) [candGood],
   (pid_misconfig_abort cfgBothTrue selAcc selAcc trkMapG trkMapG).2 (by decide) candGood []⟩

lemma okOuts_cases (cfg : Config) (selectorPion selectorProton : PidSel)
    (tracks lfTracks : Nat → Track) (cands : List Candidate) :
    okOuts (processCandidates cfg selectorPion selectorProton tracks lfTracks cands) =
      cands.map (candOutcome cfg selectorPion selectorProton tracks lfTracks) ∨
    okOuts (processCandidates cfg selectorPion selectorProton tracks lfTracks cands) = [] := by
  by_cases h : cfg.usePidTpcOnly = cfg.usePidTpcTofCombined
  · cases cands with
    | nil => exact Or.inr rfl
    | cons c cs =>
      right
      rw [processCandidates_invalid cfg selectorPion selectorProton tracks lfTracks h c cs]
      rfl
  · left
    rw [processCandidates_valid cfg selectorPion selectorProton tracks lfTracks h cands]
    rfl

/-- Claim C3: for every emitted outcome record, the PID composite flags are
monotonically nested: the cascade-consistent flag implies the Λ-consistent
flag, and the charm-baryon-consistent flag implies the cascade-consistent
flag. -/
theorem pid_flags_nested (cfg : Config) (selectorPion selectorProton : PidSel)
    (tracks lfTracks : Nat → Track) (cands : List Candidate) (out : SelOutcome)
    (hmem : out ∈ okOuts (processCandidates cfg selectorPion selectorProton tracks lfTracks cands)) :
    (out.statusPidCascade = true → out.statusPidLambda = true) ∧
    (out.statusPidCharmBaryon = true → out.statusPidCascade = true) := by
  rcases okOuts_cases cfg selectorPion selectorProton tracks lfTracks cands with h | h
  · rw [h] at hmem
    rcases List.mem_map.mp hmem with ⟨c, -, rfl⟩
    rw [candOutcome_statusPidCascade, candOutcome_statusPidLambda,
      candOutcome_statusPidCharmBaryon]
    constructor
    · intro hca
      simp only [statusPidCascadeOf, Bool.and_eq_true] at hca
      simp only [statusPidLambdaOf, Bool.and_eq_true]
      exact ⟨hca.1.1, hca.1.2⟩
    · intro hcb
      simp only [statusPidCharmBaryonOf, Bool.and_eq_true] at hcb
      simp only [statusPidCascadeOf, Bool.and_eq_true]
      exact hcb.1
  · rw [h] at hmem
    exact absurd hmem (List.not_mem_nil out)

/-- Witness for claim C3 at a concrete emitted record. -/
theorem pid_flags_nested_witness :
    ((candOutcome cfgDefault selAcc selAcc trkMapG trkMapG candGood).statusPidCascade = true →
      (candOutcome cfgDefault selAcc selAcc trkMapG trkMapG candGood).statusPidLambda = true) ∧
    ((candOutcome cfgDefault selAcc selAcc trkMapG trkMapG candGood).statusPidCharmBaryon = true →
      (candOutcome cfgDefault selAcc selAcc trkMapG trkMapG candGood).statusPidCascade = true) :=
  pid_flags_nested cfgDefault selAcc selAcc trkMapG trkMapG [candGood]
    (candOutcome cfgDefault selAcc selAcc trkMapG trkMapG candGood)
    (by rw [processCandidates_valid cfgDefault selAcc selAcc trkMapG trkMapG (by decide) [candGood]]
        simp [okOuts])

/-- Claim C4: track-role resolution follows the cascade-daughter decay sign:
for positive sign the positive V0 daughter is the pion and the negative one
the proton, for negative sign the reverse; and the resolved roles are the
tracks used by the downstream PID checks and recorded PID deviations. -/
theorem track_roles_by_sign (cfg : Config) (selectorPion selectorProton : PidSel)
    (tracks lfTracks : Nat → Track) (c : Candidate) :
    (c.signDecay > 0 →
      trackPiFromLam lfTracks c = lfTracks c.posTrackId ∧
      trackPrFromLam lfTracks c = lfTracks c.negTrackId) ∧
    (c.signDecay < 0 →
      trackPiFromLam lfTracks c = lfTracks c.negTrackId ∧
      trackPrFromLam lfTracks c = lfTracks c.posTrackId) ∧
    (candOutcome cfg selectorPion selectorProton tracks lfTracks c).statusPidLambda =
      (decide (statusPidTrack cfg selectorProton (trackPrFromLam lfTracks c) = Accepted) &&
       decide (statusPidTrack cfg selectorPion (trackPiFromLam lfTracks c) = Accepted)) ∧
    (candOutcome cfg selectorPion selectorProton tracks lfTracks c).nSigTpcPiFromLam =
      (trackPiFromLam lfTracks c).tpcNSigmaPi ∧
    (candOutcome cfg selectorPion selectorProton tracks lfTracks c).nSigTpcPrFromLam =
      (trackPrFromLam lfTracks c).tpcNSigmaPr ∧
    (candOutcome cfg selectorPion selectorProton tracks lfTracks c).nSigTofPiFromLam =
      (trackPiFromLam lfTracks c).tofNSigmaPi ∧
    (candOutcome cfg selectorPion selectorProton tracks lfTracks c).nSigTofPrFromLam =
      (trackPrFromLam lfTracks c).tofNSigmaPr := by
  refine ⟨fun h => ?_, fun h => ?_, rfl, rfl, rfl, rfl, rfl⟩
  · simp [trackPiFromLam, trackPrFromLam, h]
  · have hng : ¬ c.signDecay > 0 := by omega
    simp [trackPiFromLam, trackPrFromLam, hng]

/-- Witness for claim C4 for one positive-sign and one negative-sign candidate. -/
theorem track_roles_by_sign_witness :
    (trackPiFromLam trkMapG candSignPos = trkMapG candSignPos.posTrackId ∧
     trackPrFromLam trkMapG candSignPos = trkMapG candSignPos.negTrackId) ∧
    (trackPiFromLam trkMapG candGood = trkMapG candGood.negTrackId ∧
     trackPrFromLam trkMapG candGood = trkMapG candGood.posTrackId) :=
  ⟨(track_roles_by_sign cfgDefault selAcc selAcc trkMapG trkMapG candSignPos).1 (by decide),
   (track_roles_by_sign cfgDefault selAcc selAcc trkMapG trkMapG candGood).2.1 (by decide)⟩

/-- Claim C5: the Λ and cascade mass-window flags hold exactly when the
absolute distance to the physical reference mass is strictly below the
configured window, so a mass exactly at reference ± window is excluded. -/
theorem mass_windows_strict (cfg : Config) (selectorPion selectorProton : PidSel)
    (tracks lfTracks : Nat → Track) (c : Candidate) :
    ((candOutcome cfg selectorPion selectorProton tracks lfTracks c).statusInvMassLambda = true ↔
      |c.invMassLambda - massLambdaFromPDG| < cfg.v0MassWindow) ∧
    ((candOutcome cfg selectorPion selectorProton tracks lfTracks c).statusInvMassCascade = true ↔
      |c.invMassCascade - massXiFromPDG| < cfg.cascadeMassWindow) ∧
    (c.invMassLambda = massLambdaFromPDG + cfg.v0MassWindow ∨
      c.invMassLambda = massLambdaFromPDG - cfg.v0MassWindow →
      (candOutcome cfg selectorPion selectorProton tracks lfTracks c).statusInvMassLambda = false) ∧
    (c.invMassCascade = massXiFromPDG + cfg.cascadeMassWindow ∨
      c.invMassCascade = massXiFromPDG - cfg.cascadeMassWindow →
      (candOutcome cfg selectorPion selectorProton tracks lfTracks c).statusInvMassCascade = false) := by
  refine ⟨?_, ?_, fun h => ?_, fun h => ?_⟩
  · rw [candOutcome_statusInvMassLambda]
    simp [statusInvMassLambdaOf]
  · rw [candOutcome_statusInvMassCascade]
    simp [statusInvMassCascadeOf]
  · rw [candOutcome_statusInvMassLambda]
    rcases h with h | h
    · simp only [statusInvMassLambdaOf, h, add_sub_cancel_left, decide_eq_false_iff_not]
      exact not_lt.mpr (le_abs_self _)
    · simp only [statusInvMassLambdaOf, h, sub_sub_cancel_left, abs_neg,
        decide_eq_false_iff_not]
      exact not_lt.mpr (le_abs_self _)
  · rw [candOutcome_statusInvMassCascade]
    rcases h with h | h
    · simp only [statusInvMassCascadeOf, h, add_sub_cancel_left, decide_eq_false_iff_not]
      exact not_lt.mpr (le_abs_self _)
    · simp only [statusInvMassCascadeOf, h, sub_sub_cancel_left, abs_neg,
        decide_eq_false_iff_not]
      exact not_lt.mpr (le_abs_self _)

/-- Witness for claim C5: masses exactly at the window boundary are rejected. -/
theorem mass_windows_strict_witness :
    (candOutcome cfgDefault selAcc selAcc trkMapG trkMapG candLamBoundary).statusInvMassLambda = false ∧
    (candOutcome cfgDefault selAcc selAcc trkMapG trkMapG candCascBoundary).statusInvMassCascade = false :=
  ⟨(mass_windows_strict cfgDefault selAcc selAcc trkMapG trkMapG candLamBoundary).2.2.1
      (Or.inl rfl),
   (mass_windows_strict cfgDefault selAcc selAcc trkMapG trkMapG candCascBoundary).2.2.2
      (Or.inl rfl)⟩

/-- Claim C6: the charm-baryon mass flag holds exactly when the reconstructed
mass lies in the closed configured interval, with both endpoints accepted. -/
theorem charm_mass_closed_interval (cfg : Config) (selectorPion selectorProton : PidSel)
    (tracks lfTracks : Nat → Track) (c : Candidate) :
    ((candOutcome cfg selectorPion selectorProton tracks lfTracks c).statusInvMassCharmBaryon = true ↔
      cfg.invMassCharmBaryonMin ≤ c.invMassCharmBaryon ∧
      c.invMassCharmBaryon ≤ cfg.invMassCharmBaryonMax) ∧
    (c.invMassCharmBaryon = cfg.invMassCharmBaryonMin →
      cfg.invMassCharmBaryonMin ≤ cfg.invMassCharmBaryonMax →
      (candOutcome cfg selectorPion selectorProton tracks lfTracks c).statusInvMassCharmBaryon = true) ∧
    (c.invMassCharmBaryon = cfg.invMassCharmBaryonMax →
      cfg.invMassCharmBaryonMin ≤ cfg.invMassCharmBaryonMax →
      (candOutcome cfg selectorPion selectorProton tracks lfTracks c).statusInvMassCharmBaryon = true) := by
  have hiff :
      (candOutcome cfg selectorPion selectorProton tracks lfTracks c).statusInvMassCharmBaryon = true ↔
        cfg.invMassCharmBaryonMin ≤ c.invMassCharmBaryon ∧
        c.invMassCharmBaryon ≤ cfg.invMassCharmBaryonMax := by
    rw [candOutcome_statusInvMassCharmBaryon]
    simp [statusInvMassCharmBaryonOf]
  refine ⟨hiff, fun h hle => ?_, fun h hle => ?_⟩
  · exact hiff.mpr ⟨le_of_eq h.symm, h ▸ hle⟩
  · exact hiff.mpr ⟨h ▸ hle, le_of_eq h⟩

/-- Witness for claim C6: masses exactly at each interval endpoint are accepted. -/
theorem charm_mass_closed_interval_witness :
    (candOutcome cfgDefault selAcc selAcc trkMapG trkMapG candCharmAtMin).statusInvMassCharmBaryon = true ∧
    (candOutcome cfgDefault selAcc selAcc trkMapG trkMapG candCharmAtMax).statusInvMassCharmBaryon = true :=
  ⟨(charm_mass_closed_interval cfgDefault selAcc selAcc trkMapG trkMapG candCharmAtMin).2.1
      rfl (show (2:ℚ) ≤ 31/10 by norm_num),
   (charm_mass_closed_interval cfgDefault selAcc selAcc trkMapG trkMapG candCharmAtMax).2.2
      rfl (show (2:ℚ) ≤ 31/10 by norm_num)⟩

/-- Claim C7: under a valid PID configuration, one outcome record is emitted
per input candidate, in input order with no drops or duplicates, and the
detector-presence bitmasks and the eight PID deviation scores of each record
are the per-track values, recorded independently of every acceptance verdict. -/
theorem one_record_per_candidate (cfg : Config) (selectorPion selectorProton : PidSel)
    (tracks lfTracks : Nat → Track) (cands : List Candidate)
    (hvalid : cfg.usePidTpcOnly ≠ cfg.usePidTpcTofCombined) :
    processCandidates cfg selectorPion selectorProton tracks lfTracks cands =
      Except.ok (cands.map (candOutcome cfg selectorPion selectorProton tracks lfTracks),
        (cands.map (candFills cfg selectorPion selectorProton tracks lfTracks)).flatten) ∧
    okOuts (processCandidates cfg selectorPion selectorProton tracks lfTracks cands) =
      cands.map (candOutcome cfg selectorPion selectorProton tracks lfTracks) ∧
    (okOuts (processCandidates cfg selectorPion selectorProton tracks lfTracks cands)).length =
      cands.length ∧
    ∀ c : Candidate,
      (candOutcome cfg selectorPion selectorProton tracks lfTracks c).infoTpcStored =
        infoTpcStoredOf tracks lfTracks c ∧
      (candOutcome cfg selectorPion selectorProton tracks lfTracks c).infoTofStored =
        infoTofStoredOf tracks lfTracks c ∧
      (candOutcome cfg selectorPion selectorProton tracks lfTracks c).nSigTpcPiFromCharmBaryon =
        (tracks c.bachelorFromCharmBaryonId).tpcNSigmaPi ∧
      (candOutcome cfg selectorPion selectorProton tracks lfTracks c).nSigTpcPiFromCasc =
        (lfTracks c.bachelorId).tpcNSigmaPi ∧
      (candOutcome cfg selectorPion selectorProton tracks lfTracks c).nSigTpcPiFromLam =
        (trackPiFromLam lfTracks c).tpcNSigmaPi ∧
      (candOutcome cfg selectorPion selectorProton tracks lfTracks c).nSigTpcPrFromLam =
        (trackPrFromLam lfTracks c).tpcNSigmaPr ∧
      (candOutcome cfg selectorPion selectorProton tracks lfTracks c).nSigTofPiFromCharmBaryon =
        (tracks c.bachelorFromCharmBaryonId).tofNSigmaPi ∧
      (candOutcome cfg selectorPion selectorProton tracks lfTracks c).nSigTofPiFromCasc =
        (lfTracks c.bachelorId).tofNSigmaPi ∧
      (candOutcome cfg selectorPion selectorProton tracks lfTracks c).nSigTofPiFromLam =
        (trackPiFromLam lfTracks c).tofNSigmaPi ∧
      (candOutcome cfg selectorPion selectorProton tracks lfTracks c).nSigTofPrFromLam =
        (trackPrFromLam lfTracks c).tofNSigmaPr := by
  have hp := processCandidates_valid cfg selectorPion selectorProton tracks lfTracks hvalid cands
  refine ⟨hp, ?_, ?_, fun c => ⟨rfl, rfl, rfl, rfl, rfl, rfl, rfl, rfl, rfl, rfl⟩⟩
  · rw [hp]
    rfl
  · rw [hp]
    simp [okOuts]

/-- Witness for claim C7 at a concrete two-candidate run. -/
theorem one_record_per_candidate_witness :
    processCandidates cfgDefault selAcc selAcc trkMapG trkMapG [candGood, candSignPos] =
      Except.ok ([candGood, candSignPos].map (candOutcome cfgDefault selAcc selAcc trkMapG trkMapG),
        ([candGood, candSignPos].map (candFills cfgDefault selAcc selAcc trkMapG trkMapG)).flatten) ∧
    (okOuts (processCandidates cfgDefault selAcc selAcc trkMapG trkMapG [candGood, candSignPos])).length = 2 ∧
    (candOutcome cfgDefault selAcc selAcc trkMapG trkMapG candGood).infoTpcStored =
      infoTpcStoredOf trkMapG trkMapG candGood :=
  ⟨(one_record_per_candidate cfgDefault selAcc selAcc trkMapG trkMapG [candGood, candSignPos]
      (by decide)).1,
   (one_record_per_candidate cfgDefault selAcc selAcc trkMapG trkMapG [candGood, candSignPos]
      (by decide)).2.2.1,
   ((one_record_per_candidate cfgDefault selAcc selAcc trkMapG trkMapG [candGood, candSignPos]
      (by decide)).2.2.2 candGood).1⟩

/-- Claim C8: the six PID and invariant-mass flags are computed independently
of the topological inputs — two candidates agreeing on the four track
references, the decay sign and the three invariant masses get identical
PID/mass flags whatever their topological inputs — and a failed cascade
decay-radius predicate only forces the overall topological flag to false and
puts the fail tally of `hSelRadCasc` among the fills. -/
theorem pid_mass_independent_of_topology (cfg : Config)
    (selectorPion selectorProton : PidSel) (tracks lfTracks : Nat → Track)
    (c1 c2 : Candidate)
    (hpos : c1.posTrackId = c2.posTrackId) (hneg : c1.negTrackId = c2.negTrackId)
    (hbach : c1.bachelorId = c2.bachelorId)
    (hcharm : c1.bachelorFromCharmBaryonId = c2.bachelorFromCharmBaryonId)
    (hsign : c1.signDecay = c2.signDecay)
    (hmassL : c1.invMassLambda = c2.invMassLambda)
    (hmassC : c1.invMassCascade = c2.invMassCascade)
    (hmassB : c1.invMassCharmBaryon = c2.invMassCharmBaryon) :
    ((candOutcome cfg selectorPion selectorProton tracks lfTracks c1).statusPidLambda =
       (candOutcome cfg selectorPion selectorProton tracks lfTracks c2).statusPidLambda ∧
     (candOutcome cfg selectorPion selectorProton tracks lfTracks c1).statusPidCascade =
       (candOutcome cfg selectorPion selectorProton tracks lfTracks c2).statusPidCascade ∧
     (candOutcome cfg selectorPion selectorProton tracks lfTracks c1).statusPidCharmBaryon =
       (candOutcome cfg selectorPion selectorProton tracks lfTracks c2).statusPidCharmBaryon ∧
     (candOutcome cfg selectorPion selectorProton tracks lfTracks c1).statusInvMassLambda =
       (candOutcome cfg selectorPion selectorProton tracks lfTracks c2).statusInvMassLambda ∧
     (candOutcome cfg selectorPion selectorProton tracks lfTracks c1).statusInvMassCascade =
       (candOutcome cfg selectorPion selectorProton tracks lfTracks c2).statusInvMassCascade ∧
     (candOutcome cfg selectorPion selectorProton tracks lfTracks c1).statusInvMassCharmBaryon =
       (candOutcome cfg selectorPion selectorProton tracks lfTracks c2).statusInvMassCharmBaryon) ∧
    (selRadCasc cfg c1 = false →
      (candOutcome cfg selectorPion selectorProton tracks lfTracks c1).resultSelections = false ∧
      (Hist.hSelRadCasc, (0:ℚ)) ∈ candFills cfg selectorPion selectorProton tracks lfTracks c1) := by
  have hpi : trackPiFromLam lfTracks c1 = trackPiFromLam lfTracks c2 := by
    simp [trackPiFromLam, hsign, hpos, hneg]
  have hpr : trackPrFromLam lfTracks c1 = trackPrFromLam lfTracks c2 := by
    simp [trackPrFromLam, hsign, hpos, hneg]
  constructor
  · refine ⟨?_, ?_, ?_, ?_, ?_, ?_⟩
    · rw [candOutcome_statusPidLambda, candOutcome_statusPidLambda]
      simp only [statusPidLambdaOf, statusPidPrFromLam, statusPidPiFromLam, hpi, hpr]
    · rw [candOutcome_statusPidCascade, candOutcome_statusPidCascade]
      simp only [statusPidCascadeOf, statusPidPrFromLam, statusPidPiFromLam,
        statusPidPiFromCasc, hpi, hpr, hbach]
    · rw [candOutcome_statusPidCharmBaryon, candOutcome_statusPidCharmBaryon]
      simp only [statusPidCharmBaryonOf, statusPidPrFromLam, statusPidPiFromLam,
        statusPidPiFromCasc, statusPidPiFromCharmBaryon, hpi, hpr, hbach, hcharm]
    · rw [candOutcome_statusInvMassLambda, candOutcome_statusInvMassLambda]
      simp only [statusInvMassLambdaOf, hmassL]
    · rw [candOutcome_statusInvMassCascade, candOutcome_statusInvMassCascade]
      simp only [statusInvMassCascadeOf, hmassC]
    · rw [candOutcome_statusInvMassCharmBaryon, candOutcome_statusInvMassCharmBaryon]
      simp only [statusInvMassCharmBaryonOf, hmassB]
  · intro hrad
    constructor
    · rw [candOutcome_resultSelections, candTopo_fst]
      simp [specTopoConjunction, hrad]
    · have hmemCut : (Hist.hSelRadCasc, (0:ℚ)) ∈
          (cutList cfg tracks lfTracks c1).map (fun p => tally p.2 p.1) := by
        cases h : cfg.applyTrkSelLf <;> simp [cutList, tally, hrad, h]
      simp only [candFills, candTopo_snd, List.mem_append]
      exact Or.inl (Or.inr hmemCut)

/-- Witness for claim C8: `candBadRadius` differs from `candGood` only in a
topological input (cascade decay radius 0.5 against minimum 0.6). -/
theorem pid_mass_independent_of_topology_witness :
    ((candOutcome cfgDefault selAcc selAcc trkMapG trkMapG candBadRadius).statusPidLambda =
       (candOutcome cfgDefault selAcc selAcc trkMapG trkMapG candGood).statusPidLambda ∧
     (candOutcome cfgDefault selAcc selAcc trkMapG trkMapG candBadRadius).statusPidCascade =
       (candOutcome cfgDefault selAcc selAcc trkMapG trkMapG candGood).statusPidCascade ∧
     (candOutcome cfgDefault selAcc selAcc trkMapG trkMapG candBadRadius).statusPidCharmBaryon =
       (candOutcome cfgDefault selAcc selAcc trkMapG trkMapG candGood).statusPidCharmBaryon ∧
     (candOutcome cfgDefault selAcc selAcc trkMapG trkMapG candBadRadius).statusInvMassLambda =
       (candOutcome cfgDefault selAcc selAcc trkMapG trkMapG candGood).statusInvMassLambda ∧
     (candOutcome cfgDefault selAcc selAcc trkMapG trkMapG candBadRadius).statusInvMassCascade =
       (candOutcome cfgDefault selAcc selAcc trkMapG trkMapG candGood).statusInvMassCascade ∧
     (candOutcome cfgDefault selAcc selAcc trkMapG trkMapG candBadRadius).statusInvMassCharmBaryon =
       (candOutcome cfgDefault selAcc selAcc trkMapG trkMapG candGood).statusInvMassCharmBaryon) ∧
    ((candOutcome cfgDefault selAcc selAcc trkMapG trkMapG candBadRadius).resultSelections = false ∧
     (Hist.hSelRadCasc, (0:ℚ)) ∈ candFills cfgDefault selAcc selAcc trkMapG trkMapG candBadRadius) :=
  ⟨(pid_mass_independent_of_topology cfgDefault selAcc selAcc trkMapG trkMapG
      candBadRadius candGood rfl rfl rfl rfl rfl rfl rfl rfl).1,
   (pid_mass_independent_of_topology cfgDefault selAcc selAcc trkMapG trkMapG
      candBadRadius candGood rfl rfl rfl rfl rfl rfl rfl rfl).2
     (by norm_num [selRadCasc, sqrtSumOfSquaresLt, candBadRadius, candGood, cfgDefault])⟩

lemma filter_condFills (p : Fill → Bool) (b : Bool) (fs : List Fill) :
    (condFills b fs).filter p = condFills b (fs.filter p) := by
  cases b <;> simp [condFills]

/-- Claim C9: a candidate whose cascade-daughter sign is exactly zero still
gets a complete outcome record, with the default role assignment (negative
V0 daughter as pion, positive as proton — the same as for negative sign),
and neither bin of the `hSelSignDec` tally receives a fill. -/
theorem sign_zero_default_roles (cfg : Config) (selectorPion selectorProton : PidSel)
    (tracks lfTracks : Nat → Track) (c : Candidate)
    (hsign : c.signDecay = 0) (hvalid : cfg.usePidTpcOnly ≠ cfg.usePidTpcTofCombined) :
    trackPiFromLam lfTracks c = lfTracks c.negTrackId ∧
    trackPrFromLam lfTracks c = lfTracks c.posTrackId ∧
    processCandidate cfg selectorPion selectorProton tracks lfTracks c =
      Except.ok (candOutcome cfg selectorPion selectorProton tracks lfTracks c,
        candFills cfg selectorPion selectorProton tracks lfTracks c) ∧
    (candFills cfg selectorPion selectorProton tracks lfTracks c).filter
      (fun f => decide (f.1 = Hist.hSelSignDec)) = [] := by
  refine ⟨?_, ?_,
    processCandidate_valid cfg selectorPion selectorProton tracks lfTracks c hvalid, ?_⟩
  · simp [trackPiFromLam, hsign]
  · simp [trackPrFromLam, hsign]
  · rw [candFills, List.filter_append]
    have h1 : (candTopo cfg tracks lfTracks c).2.filter
        (fun f => decide (f.1 = Hist.hSelSignDec)) = [] := by
      rw [candTopo_snd, List.filter_append]
      have hs : signFills c = [] := by simp [signFills, hsign]
      rw [hs]
      cases h : cfg.applyTrkSelLf <;> simp [cutList, tally, h, List.filter_cons]
    have h2 : ((candPidMass cfg selectorPion selectorProton tracks lfTracks c
        (candTopo cfg tracks lfTracks c).1).2).filter
        (fun f => decide (f.1 = Hist.hSelSignDec)) = [] := by
      rw [show (candPidMass cfg selectorPion selectorProton tracks lfTracks c
        (candTopo cfg tracks lfTracks c).1).2 =
          pidMassFills cfg selectorPion selectorProton tracks lfTracks c
            (candTopo cfg tracks lfTracks c).1 from rfl]
      simp only [pidMassFills, List.filter_append, filter_condFills, List.filter_cons,
        List.filter_nil]
      simp [condFills, tally]
    rw [h1, h2]
    rfl

/-- Witness for claim C9 at a concrete zero-sign candidate. -/
theorem sign_zero_default_roles_witness :
    trackPiFromLam trkMapG candSignZero = trkMapG candSignZero.negTrackId ∧
    trackPrFromLam trkMapG candSignZero = trkMapG candSignZero.posTrackId ∧
    processCandidate cfgDefault selAcc selAcc trkMapG trkMapG candSignZero =
      Except.ok (candOutcome cfgDefault selAcc selAcc trkMapG trkMapG candSignZero,
        candFills cfgDefault selAcc selAcc trkMapG trkMapG candSignZero) ∧
    (candFills cfgDefault selAcc selAcc trkMapG trkMapG candSignZero).filter
      (fun f => decide (f.1 = Hist.hSelSignDec)) = [] :=
  sign_zero_default_roles cfgDefault selAcc selAcc trkMapG trkMapG candSignZero rfl (by decide)

end ToXiPi

namespace VertexerHF

lemma emitPair_fields (fit : VTrack → VTrack → List Triplet) (i j : Nat)
    (t0 t1 : VTrack) (r : SecVtxRec) (h : r ∈ emitPair fit i j t0 t1) :
    r.index0 = (i : Int) ∧ r.index1 = (j : Int) ∧ r.index2 = -1 ∧ r.tracky2 = -1 := by
  rcases List.mem_map.mp h with ⟨v, -, rfl⟩
  exact ⟨rfl, rfl, rfl, rfl⟩

lemma innerLoop_mem (fit : VTrack → VTrack → List Triplet) (i : Nat) (t0 : VTrack)
    (ts : List VTrack) :
    ∀ (j : Nat) (r : SecVtxRec), r ∈ innerLoop fit i t0 j ts →
      r.index0 = (i : Int) ∧ (j : Int) ≤ r.index1 ∧
      r.index1 < ((j + ts.length : Nat) : Int) ∧ r.index2 = -1 ∧ r.tracky2 = -1 := by
  induction ts with
  | nil =>
    intro j r hr
    simp [innerLoop] at hr
  | cons t1 ts ih =>
    intro j r hr
    rcases List.mem_append.mp (by simpa [innerLoop] using hr) with h | h
    · obtain ⟨h0, h1, h2, h3⟩ := emitPair_fields fit i j t0 t1 r h
      refine ⟨h0, le_of_eq h1.symm, ?_, h2, h3⟩
      rw [h1]
      push_cast [List.length_cons]
      omega
    · obtain ⟨h0, h1, h2, h3, h4⟩ := ih (j + 1) r h
      refine ⟨h0, ?_, ?_, h3, h4⟩
      · push_cast at h1 ⊢
        omega
      · push_cast [List.length_cons] at h2 ⊢
        omega

lemma outerLoop_mem (fit : VTrack → VTrack → List Triplet) (ts : List VTrack) :
    ∀ (i : Nat) (r : SecVtxRec), r ∈ outerLoop fit i ts →
      (i : Int) ≤ r.index0 ∧ r.index0 < r.index1 ∧
      r.index1 < ((i + ts.length : Nat) : Int) ∧ r.index2 = -1 ∧ r.tracky2 = -1 := by
  induction ts with
  | nil =>
    intro i r hr
    simp [outerLoop] at hr
  | cons t0 ts ih =>
    intro i r hr
    rcases List.mem_append.mp (by simpa [outerLoop] using hr) with h | h
    · obtain ⟨h0, h1, h2, h3, h4⟩ := innerLoop_mem fit i t0 ts (i + 1) r h
      refine ⟨le_of_eq h0.symm, ?_, ?_, h3, h4⟩
      · rw [h0]
        push_cast at h1 ⊢
        omega
      · push_cast [List.length_cons] at h2 ⊢
        omega
    · obtain ⟨h0, h1, h2, h3, h4⟩ := ih (i + 1) r h
      refine ⟨?_, h1, ?_, h3, h4⟩
      · push_cast at h0 ⊢
        omega
      · push_cast [List.length_cons] at h2 ⊢
        omega

lemma emitPair_filter (fit : VTrack → VTrack → List Triplet) (tI tJ i j : Nat)
    (t0 t1 : VTrack) :
    (emitPair fit i j t0 t1).filter (pairPred tI tJ) =
      if tI = i ∧ tJ = j then emitPair fit i j t0 t1 else [] := by
  rw [show emitPair fit i j t0 t1 = (fit t0 t1).map (fun v =>
      (⟨v.x, v.y, (i : Int), (j : Int), -1, t0.y, t1.y, -1⟩ : SecVtxRec)) from rfl,
    List.filter_map]
  by_cases h : tI = i ∧ tJ = j
  · rcases h with ⟨rfl, rfl⟩
    rw [if_pos ⟨rfl, rfl⟩]
    have hc : (pairPred tI tJ ∘ fun v : Triplet =>
        (⟨v.x, v.y, (tI : Int), (tJ : Int), -1, t0.y, t1.y, -1⟩ : SecVtxRec)) =
        fun _ => true := by
      funext v
      simp [pairPred, Function.comp]
    rw [hc, List.filter_true]
  · rw [if_neg h]
    have hc : (pairPred tI tJ ∘ fun v : Triplet =>
        (⟨v.x, v.y, (i : Int), (j : Int), -1, t0.y, t1.y, -1⟩ : SecVtxRec)) =
        fun _ => false := by
      funext v
      simp only [pairPred, Function.comp]
      rcases not_and_or.mp h with hni | hnj
      · have hx : ¬((i : Int) = (tI : Int)) := by
          intro hc
          exact hni (by exact_mod_cast hc.symm)
        simp [hx]
      · have hx : ¬((j : Int) = (tJ : Int)) := by
          intro hc
          exact hnj (by exact_mod_cast hc.symm)
        simp [hx]
    rw [hc, List.filter_false, List.map_nil]

lemma innerLoop_filter (fit : VTrack → VTrack → List Triplet) (i tI tJ : Nat)
    (t0 : VTrack) (ts : List VTrack) :
    ∀ j : Nat, (innerLoop fit i t0 j ts).filter (pairPred tI tJ) =
      if tI = i ∧ j ≤ tJ ∧ tJ < j + ts.length then
        emitPair fit i tJ t0 (ts.getD (tJ - j) vtrack0)
      else [] := by
  induction ts with
  | nil =>
    intro j
    rw [show innerLoop fit i t0 j [] = [] from rfl,
      if_neg (by rintro ⟨-, h1, h2⟩; simp at h2; omega)]
    rfl
  | cons t1 ts ih =>
    intro j
    rw [show innerLoop fit i t0 j (t1 :: ts) =
        emitPair fit i j t0 t1 ++ innerLoop fit i t0 (j + 1) ts from rfl,
      List.filter_append, emitPair_filter, ih (j + 1)]
    by_cases hI : tI = i
    · subst hI
      by_cases hJ : tJ = j
      · subst hJ
        rw [if_pos ⟨rfl, rfl⟩, if_neg (by rintro ⟨-, h1, -⟩; omega),
          if_pos ⟨rfl, le_refl _, by rw [List.length_cons]; omega⟩]
        rw [Nat.sub_self, List.getD_cons_zero, List.append_nil]
      · rw [if_neg (by rintro ⟨-, hc⟩; exact hJ hc)]
        by_cases hJ2 : j + 1 ≤ tJ ∧ tJ < (j + 1) + ts.length
        · rw [if_pos ⟨rfl, hJ2.1, hJ2.2⟩,
            if_pos ⟨rfl, by omega, by rw [List.length_cons]; omega⟩]
          have hst : tJ - j = (tJ - (j + 1)) + 1 := by omega
          rw [List.nil_append, hst, List.getD_cons_succ]
        · rw [if_neg (by rintro ⟨-, h1, h2⟩; exact hJ2 ⟨h1, h2⟩),
            if_neg (by
              rintro ⟨-, h1, h2⟩
              rw [List.length_cons] at h2
              exact hJ2 ⟨by omega, by omega⟩)]
          rfl
    · rw [if_neg (fun hc => hI hc.1), if_neg (fun hc => hI hc.1),
        if_neg (fun hc => hI hc.1)]
      rfl

lemma outerLoop_filter (fit : VTrack → VTrack → List Triplet) (tI tJ : Nat)
    (ts : List VTrack) :
    ∀ i : Nat, (outerLoop fit i ts).filter (pairPred tI tJ) =
      if i ≤ tI ∧ tI < tJ ∧ tJ < i + ts.length then
        emitPair fit tI tJ (ts.getD (tI - i) vtrack0) (ts.getD (tJ - i) vtrack0)
      else [] := by
  induction ts with
  | nil =>
    intro i
    rw [show outerLoop fit i [] = [] from rfl,
      if_neg (by rintro ⟨h0, h1, h2⟩; simp at h2; omega)]
    rfl
  | cons t0 ts ih =>
    intro i
    rw [show outerLoop fit i (t0 :: ts) =
        innerLoop fit i t0 (i + 1) ts ++ outerLoop fit (i + 1) ts from rfl,
      List.filter_append, innerLoop_filter fit i tI tJ t0 ts (i + 1), ih (i + 1)]
    by_cases hI : tI = i
    · subst hI
      by_cases hJ : tI + 1 ≤ tJ ∧ tJ < (tI + 1) + ts.length
      · rw [if_pos ⟨rfl, hJ.1, hJ.2⟩, if_neg (by rintro ⟨h0, -, -⟩; omega),
          if_pos ⟨le_refl _, by omega, by rw [List.length_cons]; omega⟩]
        have hst : tJ - tI = (tJ - (tI + 1)) + 1 := by omega
        rw [List.append_nil, Nat.sub_self, List.getD_cons_zero, hst, List.getD_cons_succ]
      · rw [if_neg (by rintro ⟨-, h1, h2⟩; exact hJ ⟨h1, h2⟩),
          if_neg (by rintro ⟨h0, -, -⟩; omega),
          if_neg (by
            rintro ⟨-, h1, h2⟩
            rw [List.length_cons] at h2
            exact hJ ⟨by omega, by omega⟩)]
        rfl
    · by_cases hI2 : (i + 1) ≤ tI ∧ tI < tJ ∧ tJ < (i + 1) + ts.length
      · rw [if_neg (fun hc => hI hc.1), if_pos hI2,
          if_pos ⟨by omega, hI2.2.1, by rw [List.length_cons]; omega⟩]
        have hstI : tI - i = (tI - (i + 1)) + 1 := by omega
        have hstJ : tJ - i = (tJ - (i + 1)) + 1 := by omega
        rw [List.nil_append, hstI, List.getD_cons_succ, hstJ, List.getD_cons_succ]
      · rw [if_neg (fun hc => hI hc.1), if_neg hI2,
          if_neg (by
            rintro ⟨h0, h1, h2⟩
            rw [List.length_cons] at h2
            exact hI2 ⟨by omega, h1, by omega⟩)]
        rfl

/-- Claim C10: every emitted SecVtx record comes from an ordered pair of
distinct tracks — `index0` strictly earlier in the input table than `index1`,
both in range, hence distinct tracks — with the sentinel third-track fields
`index2 = -1` and `tracky2 = -1`; and for each index pair the emitted records
are exactly one record per PCA candidate of that pair's single fit, so every
unordered pair is visited exactly once. -/
theorem secvtx_pairs (fit : VTrack → VTrack → List Triplet) (tracks : List VTrack) :
    (∀ r ∈ vertexerProcess fit tracks,
      0 ≤ r.index0 ∧ r.index0 < r.index1 ∧ r.index1 < (tracks.length : Int) ∧
      r.index2 = -1 ∧ r.tracky2 = -1) ∧
    (∀ tI tJ : Nat, (vertexerProcess fit tracks).filter (pairPred tI tJ) =
      if tI < tJ ∧ tJ < tracks.length then
        emitPair fit tI tJ (tracks.getD tI vtrack0) (tracks.getD tJ vtrack0)
      else []) := by
  constructor
  · intro r hr
    obtain ⟨h0, h1, h2, h3, h4⟩ := outerLoop_mem fit tracks 0 r hr
    refine ⟨by exact_mod_cast h0, h1, ?_, h3, h4⟩
    push_cast at h2 ⊢
    omega
  · intro tI tJ
    rw [show vertexerProcess fit tracks = outerLoop fit 0 tracks from rfl,
      outerLoop_filter fit tI tJ tracks 0]
    by_cases h : tI < tJ ∧ tJ < tracks.length
    · rw [if_pos ⟨Nat.zero_le _, h.1, by omega⟩, if_pos h, Nat.sub_zero, Nat.sub_zero]
    · rw [if_neg (by rintro ⟨-, h1, h2⟩; exact h ⟨h1, by omega⟩), if_neg h]

/-- Witness for claim C10 at a concrete fitter and a two-track table. -/
theorem secvtx_pairs_witness :
    (0 ≤ rec01.index0 ∧ rec01.index0 < rec01.index1 ∧
      rec01.index1 < (tracksTwo.length : Int) ∧ rec01.index2 = -1 ∧ rec01.tracky2 = -1) ∧
    (vertexerProcess fitOne tracksTwo).filter (pairPred 0 1) =
      if 0 < 1 ∧ 1 < tracksTwo.length then
        emitPair fitOne 0 1 (tracksTwo.getD 0 vtrack0) (tracksTwo.getD 1 vtrack0)
      else [] :=
  ⟨(secvtx_pairs fitOne tracksTwo).1 rec01
      (by simp [vertexerProcess, outerLoop, innerLoop, emitPair, fitOne, tracksTwo, rec01]),
   (secvtx_pairs fitOne tracksTwo).2 0 1⟩

end VertexerHF

